import Mathlib

/-!
# AG2D — verification of the timing/scheduling core

Shallow embedding of the AG2D 2D game engine (files `src/js/index.js`,
`src/js/modules/ag2d.js`, `src/js/models/Animation.js`).  Numbers are
modelled as rationals with JavaScript's `%`, `Math.floor` and
`Math.round` made explicit.  Within one synchronous tick the clock is
modelled as constant, so the repeated `window.performance.now()` samples
inside `renderLoop` all read the tick's timestamp.
-/

namespace AG2D

/-- JavaScript truncation toward zero, as used by the `%` operator. -/
def jsTrunc (q : ℚ) : ℤ :=
  if 0 ≤ q then ⌊q⌋ else ⌈q⌉

/-- JavaScript `a % b` (truncated remainder). -/
def jsMod (a b : ℚ) : ℚ :=
  a - b * (jsTrunc (a / b) : ℚ)

/-- JavaScript `Math.floor`. -/
def jsFloor (q : ℚ) : ℤ := ⌊q⌋

/-- JavaScript `Math.round` (half rounds up). -/
def jsRound (q : ℚ) : ℤ := ⌊q + 1/2⌋

/-- Mutable scheduler fields of the engine object: `this.lastUpdate`,
`this.lastDraw` and `this.interval` (`index.js` lines 33-35). -/
structure SchedState where
  lastUpdate : ℚ
  lastDraw : ℚ
  interval : ℚ
deriving DecidableEq, Repr

/-- Observable calls made during one `renderLoop` tick: `update` with its
delta time, and `draw`. -/
inductive SchedEvent where
  | update (delta : ℚ)
  | draw
deriving DecidableEq, Repr

/-- Result of one `renderLoop` tick: the new engine state and the calls
made, in order. -/
structure TickResult where
  state : SchedState
  events : List SchedEvent
deriving DecidableEq, Repr

/-- One invocation of `AG2D.prototype.renderLoop` (`index.js` 145-173,
`ag2d.js` 85-109) at clock time `timeNow`: compute `drawDeltaTime` and
`updateDeltaTime`, call `update` unconditionally, set `lastUpdate`, and
when `drawDeltaTime > interval` call `draw` and set
`lastDraw = timeNow - (drawDeltaTime % interval)`. -/
def renderLoopTick (s : SchedState) (timeNow : ℚ) : TickResult :=
  let drawDeltaTime := timeNow - s.lastDraw
  let updateDeltaTime := timeNow - s.lastUpdate
  if drawDeltaTime > s.interval then
    { state := { lastUpdate := timeNow
                 lastDraw := timeNow - jsMod drawDeltaTime s.interval
                 interval := s.interval }
      events := [.update updateDeltaTime, .draw] }
  else
    { state := { lastUpdate := timeNow
                 lastDraw := s.lastDraw
                 interval := s.interval }
      events := [.update updateDeltaTime] }

/-- Run `renderLoop` over a list of tick timestamps, returning the final
state. -/
def runTicks (s : SchedState) : List ℚ → SchedState
  | [] => s
  | t :: ts => runTicks (renderLoopTick s t).state ts

/-- Run `renderLoop` over a list of tick timestamps, returning each
tick's event list. -/
def runEvents (s : SchedState) : List ℚ → List (List SchedEvent)
  | [] => []
  | t :: ts => (renderLoopTick s t).events :: runEvents (renderLoopTick s t).state ts

/-- Logical design size `this.size` (`index.js` 29-32). -/
structure Size where
  width : ℚ
  height : ℚ
deriving DecidableEq, Repr

/-- Canvas/transform fields written by `resizeCanvas`: `this.ratio`, the
canvas `width`/`height` attributes (backing store, rounded integers) and
the CSS style width/height.  (`canvasBounds` comes from the DOM's
`getBoundingClientRect` and is outside the embedding.) -/
structure CanvasState where
  ratio : ℚ
  attrWidth : ℤ
  attrHeight : ℤ
  styleWidth : ℚ
  styleHeight : ℚ
deriving DecidableEq, Repr

/-- The fit computation inside `AG2D.prototype.resizeCanvas`
(`index.js` 192-211): compare `width / height` with
`size.width / size.height`; crop width with `Math.floor(height * destRatio)`
when the container ratio is strictly larger, otherwise crop height with
`Math.floor(width / destRatio)`.  Returns `(fitWidth, fitHeight)`. -/
def resizeFit (size : Size) (width height : ℚ) : ℚ × ℚ :=
  let ratio := width / height
  let destRatio := size.width / size.height
  if ratio > destRatio then
    ((jsFloor (height * destRatio) : ℚ), height)
  else
    (width, (jsFloor (width / destRatio) : ℚ))

/-- Full `AG2D.prototype.resizeCanvas` (`index.js` 192-226) as a state
transition: computes the fit, then overwrites `this.ratio`, the canvas
attributes (`Math.round(dim * devicePixelRatio)`) and the CSS style
size.  No field of the previous state is read, and no input validation
is performed. -/
def resizeCanvas (size : Size) (devicePixelRatio : ℚ) (_s : CanvasState)
    (width height : ℚ) : CanvasState :=
  let fit := resizeFit size width height
  { ratio := fit.1 / size.width
    attrWidth := jsRound (fit.1 * devicePixelRatio)
    attrHeight := jsRound (fit.2 * devicePixelRatio)
    styleWidth := fit.1
    styleHeight := fit.2 }

/-- The scale written to `this.ratio` by `resizeCanvas`
(`index.js` 214). -/
def resizeScale (size : Size) (width height : ℚ) : ℚ :=
  (resizeFit size width height).1 / size.width

/-- Viewport fit as the SPEC §4.2 words it (for the refinement claim):
`containerRatio = containerWidth / containerHeight`,
`logicalRatio = logicalWidth / logicalHeight`; if
`containerRatio > logicalRatio` then `fitHeight = containerHeight`,
`fitWidth = floor(fitHeight * logicalRatio)`, else
`fitWidth = containerWidth`, `fitHeight = floor(fitWidth / logicalRatio)`;
`scale = fitWidth / logicalWidth`; backing store is
`round(fit * pixelDensity)` on each axis; CSS size is the fit size
unscaled by density. -/
def specViewportFit (logicalW logicalH containerW containerH density : ℚ) :
    CanvasState :=
  let containerRatio := containerW / containerH
  let logicalRatio := logicalW / logicalH
  let fitW : ℚ :=
    if containerRatio > logicalRatio then ((⌊containerH * logicalRatio⌋ : ℤ) : ℚ)
    else containerW
  let fitH : ℚ :=
    if containerRatio > logicalRatio then containerH
    else ((⌊containerW / logicalRatio⌋ : ℤ) : ℚ)
  { ratio := fitW / logicalW
    attrWidth := ⌊fitW * density + 1/2⌋
    attrHeight := ⌊fitH * density + 1/2⌋
    styleWidth := fitW
    styleHeight := fitH }

/-- Engine fields derived from the `fps` option in the constructor
(`index.js` 26 and 35, `ag2d.js` 20 and 27). -/
structure EngineCfg where
  fps : ℚ
  interval : ℚ
deriving DecidableEq, Repr

/-- JavaScript `x || d` for a possibly-undefined numeric option: an
absent value and the falsy number `0` both yield the default. -/
def jsOrDefault (v : Option ℚ) (d : ℚ) : ℚ :=
  match v with
  | none => d
  | some x => if x = 0 then d else x

/-- The fps/interval part of the `AG2D` constructor (`index.js` 14-39,
`ag2d.js` 8-31): `this.fps = this.options.options.fps || 60` and
`this.interval = 1000 / this.fps`.  The constructor contains no
validation and no error path. -/
def mkAG2D (fpsOption : Option ℚ) : EngineCfg :=
  let fps := jsOrDefault fpsOption 60
  { fps := fps, interval := 1000 / fps }

/-- Error kind for animation-definition construction (spec §7). -/
inductive ConfigError where
  | invalidConfiguration
deriving DecidableEq, Repr

/-- Input record for an animation definition: each schema field may be
present or absent.  Frame, sprite-sheet and context payloads are
abstract type parameters. -/
structure AnimationInput (Ctx Fr Sh : Type) where
  context : Option Ctx
  fps : Option ℚ
  frames : Option (List Fr)
  loop : Option Bool
  name : Option String
  spriteSheet : Option Sh
deriving DecidableEq, Repr

/-- A validated animation definition (`models/Animation.js` 9-46 schema:
`context`, `frames`, `name`, `spriteSheet` required; `fps` defaults to
`60`; `loop` defaults to `true`). -/
structure AnimationDef (Ctx Fr Sh : Type) where
  context : Ctx
  fps : ℚ
  frames : List Fr
  loop : Bool
  name : String
  spriteSheet : Sh
deriving DecidableEq, Repr

/-- Modelled from the spec: the `PropertyValidator` module applied in
`models/Animation.js` is not under `src/` (only its call site is), so
its behaviour is taken from spec §3/§6: required fields `context`,
`frames`, `name`, `spriteSheet` must be present or construction fails
with `InvalidConfiguration` and produces no object; absent `fps`
defaults to `60`; absent `loop` defaults to `true`. -/
def mkAnimation {Ctx Fr Sh : Type} (i : AnimationInput Ctx Fr Sh) :
    Except ConfigError (AnimationDef Ctx Fr Sh) :=
  match i.context, i.frames, i.name, i.spriteSheet with
  | some c, some fr, some n, some sh =>
      .ok { context := c
            fps := i.fps.getD 60
            frames := fr
            loop := i.loop.getD true
            name := n
            spriteSheet := sh }
  | _, _, _, _ => .error .invalidConfiguration

/-! ## Scheduler lemmas -/

lemma renderLoopTick_interval (s : SchedState) (t : ℚ) :
    (renderLoopTick s t).state.interval = s.interval := by
  simp only [renderLoopTick]
  split <;> rfl

lemma renderLoopTick_shift (s : SchedState) (c t : ℚ) :
    renderLoopTick ⟨s.lastUpdate + c, s.lastDraw + c, s.interval⟩ (t + c) =
      { state := { lastUpdate := (renderLoopTick s t).state.lastUpdate + c
                   lastDraw := (renderLoopTick s t).state.lastDraw + c
                   interval := (renderLoopTick s t).state.interval }
        events := (renderLoopTick s t).events } := by
  simp only [renderLoopTick]
  have h1 : t + c - (s.lastDraw + c) = t - s.lastDraw := by ring
  have h2 : t + c - (s.lastUpdate + c) = t - s.lastUpdate := by ring
  rw [h1, h2]
  split
  · simp only [TickResult.mk.injEq, SchedState.mk.injEq]
    exact ⟨⟨trivial, by ring, trivial⟩, trivial⟩
  · rfl

lemma runEvents_shift (s : SchedState) (c : ℚ) (ts : List ℚ) :
    runEvents ⟨s.lastUpdate + c, s.lastDraw + c, s.interval⟩ (ts.map (· + c)) =
      runEvents s ts := by
  induction ts generalizing s with
  | nil => rfl
  | cons t ts ih =>
      simp only [List.map_cons, runEvents, renderLoopTick_shift]
      exact congrArg _ (ih (renderLoopTick s t).state)

lemma renderLoopTick_lastDraw_multiple (s : SchedState) (t : ℚ) (hi : 0 < s.interval) :
    ∃ k : ℕ, (renderLoopTick s t).state.lastDraw = s.lastDraw + k * s.interval := by
  simp only [renderLoopTick]
  split
  · next hgt =>
      have hd : 0 < t - s.lastDraw := lt_trans hi hgt
      have hq : 0 ≤ (t - s.lastDraw) / s.interval := le_of_lt (div_pos hd hi)
      have htr : jsTrunc ((t - s.lastDraw) / s.interval) = ⌊(t - s.lastDraw) / s.interval⌋ := by
        simp [jsTrunc, hq]
      have hfl : 0 ≤ ⌊(t - s.lastDraw) / s.interval⌋ := Int.floor_nonneg.mpr hq
      refine ⟨(⌊(t - s.lastDraw) / s.interval⌋).toNat, ?_⟩
      simp only [jsMod, htr]
      have hcast : ((⌊(t - s.lastDraw) / s.interval⌋.toNat : ℕ) : ℚ) =
          ((⌊(t - s.lastDraw) / s.interval⌋ : ℤ) : ℚ) := by
        rw [← Int.cast_natCast, Int.toNat_of_nonneg hfl]
      rw [hcast]
      ring
  · exact ⟨0, by simp⟩

lemma runTicks_lastDraw_multiple (ts : List ℚ) :
    ∀ s : SchedState, 0 < s.interval →
      ∃ k : ℕ, (runTicks s ts).lastDraw = s.lastDraw + k * s.interval := by
  induction ts with
  | nil => exact fun s _ => ⟨0, by simp [runTicks]⟩
  | cons t ts ih =>
      intro s hi
      obtain ⟨k1, h1⟩ := renderLoopTick_lastDraw_multiple s t hi
      obtain ⟨k2, h2⟩ := ih (renderLoopTick s t).state
        (by rw [renderLoopTick_interval]; exact hi)
      refine ⟨k1 + k2, ?_⟩
      show (runTicks (renderLoopTick s t).state ts).lastDraw = _
      rw [h2, h1, renderLoopTick_interval]
      push_cast
      ring

/-! ## Claim theorems: scheduler -/

/-- C1: starting from a state where `lastDraw` and `lastUpdate` both equal
`t0`, with `drawIntervalMs = 16.67`, feeding `renderLoop` the tick
timestamps `t0+5, t0+10, t0+15, t0+20` calls `update` on every one of the
four ticks (each with delta 5) and calls `draw` exactly once, on the
fourth tick, where the cumulative time since the last draw (20) first
exceeds 16.67. -/
theorem scheduler_skip_policy (t0 : ℚ) :
    runEvents ⟨t0, t0, 1667/100⟩ [t0 + 5, t0 + 10, t0 + 15, t0 + 20] =
      [[.update 5], [.update 5], [.update 5], [.update 5, .draw]] := by
  have h := runEvents_shift ⟨0, 0, 1667/100⟩ t0 [5, 10, 15, 20]
  simp only [List.map_cons, List.map_nil, zero_add] at h
  rw [add_comm 5 t0, add_comm 10 t0, add_comm 15 t0, add_comm 20 t0] at h
  rw [h]
  norm_num [runEvents, renderLoopTick, jsMod, jsTrunc]

/-- C2: on every tick whose timestamp `now` satisfies
`now - lastDraw > interval`, the scheduler sets
`lastDraw = now - ((now - lastDraw) % interval)`; consequently, across
any sequence of ticks, `lastDraw` only ever advances by whole
(natural-number) multiples of the draw interval. -/
theorem drift_correction :
    (∀ (s : SchedState) (t : ℚ), t - s.lastDraw > s.interval →
        (renderLoopTick s t).state.lastDraw = t - jsMod (t - s.lastDraw) s.interval) ∧
    ∀ (s : SchedState) (ts : List ℚ), 0 < s.interval →
      ∃ k : ℕ, (runTicks s ts).lastDraw = s.lastDraw + k * s.interval := by
  constructor
  · intro s t h
    simp only [renderLoopTick]
    rw [if_pos h]
  · intro s ts hi
    exact runTicks_lastDraw_multiple ts s hi

/-- Witness for C2 at a concrete input: state `⟨0, 0, 1667/100⟩`, tick at
25 (draw fires), and the one-tick sequence `[25]`. -/
theorem drift_correction_witness :
    ((renderLoopTick ⟨0, 0, 1667/100⟩ 25).state.lastDraw =
        25 - jsMod (25 - 0) (1667/100)) ∧
    ∃ k : ℕ, (runTicks ⟨0, 0, 1667/100⟩ [25]).lastDraw = 0 + k * (1667/100) :=
  ⟨drift_correction.1 ⟨0, 0, 1667/100⟩ 25 (by norm_num),
   drift_correction.2 ⟨0, 0, 1667/100⟩ [25] (by norm_num)⟩

/-- C5: on a tick where `now - lastDraw` is exactly equal to the draw
interval, `draw` is not called and `lastDraw` is left unchanged (the
comparison in `renderLoop` is strict greater-than). -/
theorem exact_tie_skips_draw (s : SchedState) (t : ℚ)
    (h : t - s.lastDraw = s.interval) :
    SchedEvent.draw ∉ (renderLoopTick s t).events ∧
    (renderLoopTick s t).state.lastDraw = s.lastDraw := by
  have hnot : ¬ (t - s.lastDraw > s.interval) := by
    rw [h]; exact lt_irrefl _
  simp only [renderLoopTick]
  rw [if_neg hnot]
  exact ⟨by simp, rfl⟩

/-- Witness for C5 at a concrete input: state `⟨0, 0, 10⟩` and a tick at
time 10, an exact tie. -/
theorem exact_tie_skips_draw_witness :
    SchedEvent.draw ∉ (renderLoopTick ⟨0, 0, 10⟩ 10).events ∧
    (renderLoopTick ⟨0, 0, 10⟩ 10).state.lastDraw = 0 :=
  exact_tie_skips_draw ⟨0, 0, 10⟩ 10 (by norm_num)

/-! ## Claim theorems: viewport -/

/-- Counterexample to C3 as stated: with logical size 3×7 and container
100×100, the floor inside the fit makes the computed scale 14, strictly
below `min (100/3) (100/7) = 100/7 ≈ 14.29`, so the scale does not equal
the minimum of the two axis-fit ratios. -/
theorem letterbox_scale_not_min :
    resizeScale ⟨3, 7⟩ 100 100 = 14 ∧
    min ((100 : ℚ)/3) ((100 : ℚ)/7) = 100/7 ∧
    (14 : ℚ) ≠ 100/7 := by
  refine ⟨?_, by norm_num, by norm_num⟩
  norm_num [resizeScale, resizeFit, jsFloor]

/-- C3 (amended): for all positive logical and container dimensions the
computed scale is at most `min (containerW/logicalW) (containerH/logicalH)`
(equality can fail by less than one logical-width unit because of the
`Math.floor` in the fit), and the fit width and fit height never exceed
the container width and height respectively. -/
theorem letterbox_invariant (size : Size) (w h : ℚ)
    (hsw : 0 < size.width) (hsh : 0 < size.height) (hw : 0 < w) (hh : 0 < h) :
    resizeScale size w h ≤ min (w / size.width) (h / size.height) ∧
    (resizeFit size w h).1 ≤ w ∧ (resizeFit size w h).2 ≤ h := by
  have hsw0 : size.width ≠ 0 := ne_of_gt hsw
  have hsh0 : size.height ≠ 0 := ne_of_gt hsh
  simp only [resizeScale, resizeFit, jsFloor]
  by_cases hc : w / h > size.width / size.height
  · rw [if_pos hc]
    have hfl : ((⌊h * (size.width / size.height)⌋ : ℤ) : ℚ) ≤
        h * (size.width / size.height) := Int.floor_le _
    have hlt : h * (size.width / size.height) < w := by
      have h1 : size.width / size.height * h < w := (lt_div_iff hh).mp hc
      rw [mul_comm]; exact h1
    have hmin : min (w / size.width) (h / size.height) = h / size.height := by
      refine min_eq_right (le_of_lt ?_)
      rw [div_lt_div_iff hsh hsw, mul_comm]
      exact (div_lt_div_iff hsh hh).mp hc
    refine ⟨?_, le_of_lt (lt_of_le_of_lt hfl hlt), le_refl h⟩
    rw [hmin]
    calc ((⌊h * (size.width / size.height)⌋ : ℤ) : ℚ) / size.width
        ≤ h * (size.width / size.height) / size.width :=
          (div_le_div_right hsw).mpr hfl
      _ = h / size.height := by field_simp; ring
  · rw [if_neg hc]
    have hle : w / h ≤ size.width / size.height := le_of_not_lt hc
    have hdr : (0 : ℚ) < size.width / size.height := div_pos hsw hsh
    have hmul : w * size.height ≤ size.width * h := (div_le_div_iff hh hsh).mp hle
    have hws : w / size.width ≤ h / size.height := by
      rw [div_le_div_iff hsw hsh]
      calc w * size.height ≤ size.width * h := hmul
        _ = h * size.width := mul_comm _ _
    refine ⟨le_min (le_refl _) hws, le_refl w, ?_⟩
    have hfl2 : ((⌊w / (size.width / size.height)⌋ : ℤ) : ℚ) ≤
        w / (size.width / size.height) := Int.floor_le _
    have hle2 : w / (size.width / size.height) ≤ h := by
      rw [div_le_iff hdr, ← mul_div_assoc, le_div_iff hsh]
      calc w * size.height ≤ size.width * h := hmul
        _ = h * size.width := mul_comm _ _
    exact le_trans hfl2 hle2

/-- Witness for C3 (amended) at a concrete input: logical 300×150,
container 100×100. -/
theorem letterbox_invariant_witness :
    resizeScale ⟨300, 150⟩ 100 100 ≤ min ((100 : ℚ)/300) ((100 : ℚ)/150) ∧
    (resizeFit ⟨300, 150⟩ 100 100).1 ≤ 100 ∧
    (resizeFit ⟨300, 150⟩ 100 100).2 ≤ 100 :=
  letterbox_invariant ⟨300, 150⟩ 100 100 (by norm_num) (by norm_num)
    (by norm_num) (by norm_num)

/-- C4: for positive inputs the `resizeCanvas` implementation computes
exactly the algorithm the spec describes: compare container ratio with
logical ratio; if the container ratio is strictly larger take
`fitHeight = containerHeight`, `fitWidth = floor(containerHeight * logicalRatio)`,
otherwise `fitWidth = containerWidth`,
`fitHeight = floor(containerWidth / logicalRatio)`; the scale is
`fitWidth / logicalWidth`, the canvas backing-store attributes are
`round(fit * pixelDensity)` on each axis, and the CSS size is the fit
size unscaled by density. -/
theorem viewport_fit_matches_spec (size : Size) (density w h : ℚ)
    (s : CanvasState)
    (hsw : 0 < size.width) (hsh : 0 < size.height) (hw : 0 < w) (hh : 0 < h)
    (hd : 0 < density) :
    resizeCanvas size density s w h =
      specViewportFit size.width size.height w h density := by
  simp only [resizeCanvas, resizeFit, specViewportFit, jsFloor, jsRound]
  split
  · rfl
  · rfl

/-- Witness for C4 at a concrete input: logical 300×150, container
400×100, density 2. -/
theorem viewport_fit_matches_spec_witness :
    resizeCanvas ⟨300, 150⟩ 2 ⟨1, 300, 150, 300, 150⟩ 400 100 =
      specViewportFit 300 150 400 100 2 :=
  viewport_fit_matches_spec ⟨300, 150⟩ 2 400 100 ⟨1, 300, 150, 300, 150⟩
    (by norm_num) (by norm_num) (by norm_num) (by norm_num) (by norm_num)

/-- Counterexample to C7 as stated: calling `resizeCanvas` with container
width 0 (height 10) raises nothing — the function is total, contains no
validation — and does NOT leave the transform unchanged: starting from a
state with `ratio = 1` it overwrites the ratio to 0 and the canvas
attributes and CSS size to 0. -/
theorem resize_no_validation_cex :
    resizeCanvas ⟨300, 150⟩ 1 ⟨1, 300, 150, 300, 150⟩ 0 10 =
      ⟨0, 0, 0, 0, 0⟩ ∧
    (⟨1, 300, 150, 300, 150⟩ : CanvasState).ratio ≠
      (resizeCanvas ⟨300, 150⟩ 1 ⟨1, 300, 150, 300, 150⟩ 0 10).ratio := by
  constructor
  · norm_num [resizeCanvas, resizeFit, jsFloor, jsRound]
  · norm_num [resizeCanvas, resizeFit, jsFloor, jsRound]

/-- C7 (amended): `resizeCanvas` performs no input validation; no error
is raised for zero or negative container dimensions, and the previous
transform is NOT retained: for a non-positive container width (and
positive height and positive logical size) the call proceeds and
overwrites the scale with `width / logicalWidth ≤ 0`. -/
theorem resize_accepts_nonpositive (size : Size) (density : ℚ)
    (s : CanvasState) (w h : ℚ)
    (hsw : 0 < size.width) (hsh : 0 < size.height)
    (hw : w ≤ 0) (hh : 0 < h) :
    (resizeCanvas size density s w h).ratio = w / size.width ∧
    (resizeCanvas size density s w h).ratio ≤ 0 := by
  have hc : ¬ (w / h > size.width / size.height) := by
    refine not_lt.mpr (le_trans ?_ (le_of_lt (div_pos hsw hsh)))
    exact div_nonpos_iff.mpr (Or.inr ⟨hw, le_of_lt hh⟩)
  simp only [resizeCanvas, resizeFit, jsFloor, jsRound]
  rw [if_neg hc]
  exact ⟨rfl, div_nonpos_iff.mpr (Or.inr ⟨hw, le_of_lt hsw⟩)⟩

/-- Witness for C7 (amended) at a concrete input: logical 300×150,
previous ratio 1, container 0×10. -/
theorem resize_accepts_nonpositive_witness :
    (resizeCanvas ⟨300, 150⟩ 1 ⟨1, 300, 150, 300, 150⟩ 0 10).ratio = 0 / 300 ∧
    (resizeCanvas ⟨300, 150⟩ 1 ⟨1, 300, 150, 300, 150⟩ 0 10).ratio ≤ 0 :=
  resize_accepts_nonpositive ⟨300, 150⟩ 1 ⟨1, 300, 150, 300, 150⟩ 0 10
    (by norm_num) (by norm_num) (by norm_num) (by norm_num)

/-- C8: the viewport fit is idempotent — for any fixed logical size and
pixel density, calling `resizeCanvas` twice with identical container
inputs produces the identical transform both times; the definition reads
no field of the previous canvas state, so there is no hidden
accumulation. -/
theorem resize_idempotent (size : Size) (density : ℚ) (s : CanvasState)
    (w h : ℚ) :
    resizeCanvas size density (resizeCanvas size density s w h) w h =
      resizeCanvas size density s w h ∧
    ∀ s' : CanvasState,
      resizeCanvas size density s' w h = resizeCanvas size density s w h :=
  ⟨rfl, fun _ => rfl⟩

/-! ## Claim theorems: constructor fps handling -/

/-- Counterexample to C6 as stated: constructing the engine with
`fps = 0` raises nothing — the constructor is total, with no validation
and no error path — and instead yields a normal configuration with
`fps = 60` and `interval = 1000/60`. -/
theorem fps_zero_no_error :
    mkAG2D (some 0) = { fps := 60, interval := 1000/60 } := by
  norm_num [mkAG2D, jsOrDefault]

/-- C6 (amended): constructing the engine with an fps option of 0 does
not raise any error: the falsy-or default silently replaces it with 60,
giving interval `1000/60`; a negative fps likewise raises no error and
is kept as-is, giving interval `1000/fps`. -/
theorem fps_nonpositive_accepted :
    mkAG2D (some 0) = { fps := 60, interval := 1000/60 } ∧
    ∀ f : ℚ, f < 0 → mkAG2D (some f) = { fps := f, interval := 1000/f } := by
  constructor
  · norm_num [mkAG2D, jsOrDefault]
  · intro f hf
    simp [mkAG2D, jsOrDefault, ne_of_lt hf]

/-- Witness for C6 (amended) at a concrete input: fps option `-5`. -/
theorem fps_nonpositive_accepted_witness :
    mkAG2D (some 0) = { fps := 60, interval := 1000/60 } ∧
    mkAG2D (some (-5)) = { fps := -5, interval := 1000/(-5) } :=
  ⟨fps_nonpositive_accepted.1,
   fps_nonpositive_accepted.2 (-5) (by norm_num)⟩

/-- C10: constructing the engine with fps option 0 raises no error and
produces no zero interval: the falsy-or default `options.fps || 60`
replaces 0 by 60, so the draw interval is `1000/60`; any non-zero
negative fps is accepted as-is and yields a negative interval. -/
theorem falsy_fps_default :
    (mkAG2D (some 0)).fps = 60 ∧
    (mkAG2D (some 0)).interval = 1000/60 ∧
    (mkAG2D (some 0)).interval ≠ 0 ∧
    ∀ f : ℚ, f < 0 →
      (mkAG2D (some f)).fps = f ∧ (mkAG2D (some f)).interval < 0 := by
  refine ⟨by norm_num [mkAG2D, jsOrDefault], by norm_num [mkAG2D, jsOrDefault],
    by norm_num [mkAG2D, jsOrDefault], ?_⟩
  intro f hf
  constructor
  · simp [mkAG2D, jsOrDefault, ne_of_lt hf]
  · simp only [mkAG2D, jsOrDefault, if_neg (ne_of_lt hf)]
    exact div_neg_of_pos_of_neg (by norm_num) hf

/-- Witness for C10 at a concrete input: fps option `-5` gives interval
`-200 < 0`. -/
theorem falsy_fps_default_witness :
    (mkAG2D (some 0)).fps = 60 ∧
    (mkAG2D (some 0)).interval = 1000/60 ∧
    (mkAG2D (some 0)).interval ≠ 0 ∧
    (mkAG2D (some (-5))).fps = -5 ∧ (mkAG2D (some (-5))).interval < 0 :=
  ⟨falsy_fps_default.1, falsy_fps_default.2.1, falsy_fps_default.2.2.1,
   falsy_fps_default.2.2.2 (-5) (by norm_num)⟩

/-! ## Claim theorems: animation definition validation -/

/-- C9: constructing an animation definition that omits the required
`spriteSheet` field fails with `InvalidConfiguration` and yields no
object; the same holds when `context`, `frames` or `name` is omitted;
omitting `fps` succeeds with `fps = 60`, and omitting `loop` succeeds
with `loop = true`. -/
theorem animation_validation :
    (∀ (Ctx Fr Sh : Type) (i : AnimationInput Ctx Fr Sh),
        i.spriteSheet = none ∨ i.context = none ∨ i.frames = none ∨
          i.name = none →
        mkAnimation i = .error .invalidConfiguration) ∧
    ∀ (Ctx Fr Sh : Type) (c : Ctx) (fr : List Fr) (n : String) (sh : Sh),
      mkAnimation (⟨some c, none, some fr, none, some n, some sh⟩ :
          AnimationInput Ctx Fr Sh) =
        .ok ⟨c, 60, fr, true, n, sh⟩ := by
  constructor
  · intro Ctx Fr Sh i hmiss
    obtain ⟨ctx, fpsOpt, framesOpt, loopOpt, nameOpt, sheetOpt⟩ := i
    rcases ctx with _ | c <;> rcases framesOpt with _ | fr <;>
      rcases nameOpt with _ | n <;> rcases sheetOpt with _ | sh <;>
      simp_all [mkAnimation]
  · intro Ctx Fr Sh c fr n sh
    rfl

/-- Witness for C9 at concrete inputs: a record missing only
`spriteSheet` is rejected; a record with only the required fields
defaults `fps` to 60 and `loop` to `true`. -/
theorem animation_validation_witness :
    mkAnimation (⟨some (), some 30, some [()], some false, some "walk", none⟩ :
        AnimationInput Unit Unit Unit) = .error .invalidConfiguration ∧
    mkAnimation (⟨some (), none, some [()], none, some "walk", some ()⟩ :
        AnimationInput Unit Unit Unit) =
      .ok ⟨(), 60, [()], true, "walk", ()⟩ :=
  ⟨animation_validation.1 Unit Unit Unit _ (Or.inl rfl),
   animation_validation.2 Unit Unit Unit () [()] "walk" ()⟩

end AG2D
